import Mathlib

/-!
# Verification of the MD4 implementation (src/MD4.py)

Shallow embedding of the MD4 implementation.  Python's unbounded
integers are modelled by `Nat` for the values that stay nonnegative and by
`Int` for the helper functions `f`, `g`, `h`, whose bitwise complement `~`
produces negative intermediate values.  Byte strings are lists of naturals
(a genuine Python `bytes` object has every entry `< 256`).
-/

namespace MD4

/-! ## Python integer primitives

Python's `~x` is `-x - 1`, and `&`, `|`, `^` act on the two's-complement
representation of unbounded integers.  The definitions below case on the
sign exactly as the two's-complement reading dictates; for a negative
operand `-(m+1)` the bit at position `i` is the negation of the bit of `m`.
They coincide with Mathlib's `Int.lnot`, `Int.land`, `Int.lor`, `Int.xor`
(proved in `pyAnd_eq_land`, `pyOr_eq_lor`, `pyXor_eq_xor` below) but are
structurally recursive, hence evaluable by the kernel. -/

/-- Python `~x = -x - 1`. -/
def pyNot (x : Int) : Int := -x - 1

/-- Two's-complement AND on Python ints.  `a &&& (a ^^^ b)` is the natural
number with the bits of `a` that are absent from `b`. -/
def pyAnd : Int → Int → Int
  | .ofNat m, .ofNat n => .ofNat (m &&& n)
  | .ofNat m, .negSucc n => .ofNat (m &&& (m ^^^ n))
  | .negSucc m, .ofNat n => .ofNat (n &&& (n ^^^ m))
  | .negSucc m, .negSucc n => .negSucc (m ||| n)

/-- Two's-complement OR on Python ints. -/
def pyOr : Int → Int → Int
  | .ofNat m, .ofNat n => .ofNat (m ||| n)
  | .ofNat m, .negSucc n => .negSucc (n &&& (n ^^^ m))
  | .negSucc m, .ofNat n => .negSucc (m &&& (m ^^^ n))
  | .negSucc m, .negSucc n => .negSucc (m &&& n)

/-- Two's-complement XOR on Python ints. -/
def pyXor : Int → Int → Int
  | .ofNat m, .ofNat n => .ofNat (m ^^^ n)
  | .ofNat m, .negSucc n => .negSucc (m ^^^ n)
  | .negSucc m, .ofNat n => .negSucc (m ^^^ n)
  | .negSucc m, .negSucc n => .ofNat (m ^^^ n)

/-! ## The source functions (src/MD4.py) -/

/-- Function `pad_message` (src/MD4.py lines 5-18): append `0x80`, then `0x00`
bytes until the bit length is congruent to 448 mod 512.  Python's `%` on
ints is `Int.emod` (result has the sign of the modulus), and `// 8` on the
nonnegative remainder is natural division. -/
def pad_message (message : List Nat) : List Nat :=
  let padded_message := message ++ [0x80]
  let original_bit_length : Int := (padded_message.length : Int) * 8
  let padding_length : Int := (448 - original_bit_length) % 512
  padded_message ++ List.replicate (padding_length.toNat / 8) 0

/-- Little-endian byte serialization, Python's
`x.to_bytes(length=len, byteorder="little")` for in-range `x`. -/
def to_bytes_le (len x : Nat) : List Nat :=
  (List.range len).map fun i => (x >>> (8 * i)) &&& 0xFF

/-- Function `append_length` (src/MD4.py lines 21-31): append the original length
in bits, truncated to 64 bits, as 8 little-endian bytes. -/
def append_length (message : List Nat) (original_length : Nat) : List Nat :=
  let original_bit_length := original_length * 8
  let truncated_bit_length := original_bit_length &&& ((1 <<< 64) - 1)
  message ++ to_bytes_le 8 truncated_bit_length

/-- Function `left_rotate` (src/MD4.py lines 34-40):
`((X << N) | (X >> (32 - N))) & 0xFFFFFFFF`.  Every call site passes a
nonnegative `X` and `N ≤ 31`, so `Nat` subtraction `32 - N` agrees with
Python. -/
def left_rotate (X N : Nat) : Nat :=
  ((X <<< N) ||| (X >>> (32 - N))) &&& 0xFFFFFFFF

/-- Function `f` (src/MD4.py lines 202-207): `(X & Y) | (~X & Z)` on Python ints. -/
def f (X Y Z : Int) : Int :=
  pyOr (pyAnd X Y) (pyAnd (pyNot X) Z)

/-- Function `g` (src/MD4.py lines 210-215): `(X & Y) | (X & Z) | (Y & Z)`. -/
def g (X Y Z : Int) : Int :=
  pyOr (pyOr (pyAnd X Y) (pyAnd X Z)) (pyAnd Y Z)

/-- Function `h` (src/MD4.py lines 218-223): `X ^ Y ^ Z`. -/
def h (X Y Z : Int) : Int :=
  pyXor (pyXor X Y) Z

/-- Function `operation_round_1` (src/MD4.py lines 94-99):
`left_rotate(A + ((f(B, C, D) & 0xFFFFFFFF) + X) & 0xFFFFFFFF, S)`.
Python precedence puts `+` above `&`, so the outer mask applies to the
whole sum.  `f(B,C,D) & 0xFFFFFFFF` is nonnegative for arbitrary ints, so
`Int.toNat` is exact. -/
def operation_round_1 (A B C D X S : Nat) : Nat :=
  left_rotate ((A + (((pyAnd (f B C D) 0xFFFFFFFF).toNat) + X)) &&& 0xFFFFFFFF) S

/-- Function `operation_round_2` (src/MD4.py lines 130-135):
`left_rotate(A + ((g(B, C, D) & 0xFFFFFFFF) + X + 0x5A827999) & 0xFFFFFFFF, S)`. -/
def operation_round_2 (A B C D X S : Nat) : Nat :=
  left_rotate ((A + (((pyAnd (g B C D) 0xFFFFFFFF).toNat) + X + 0x5A827999)) &&& 0xFFFFFFFF) S

/-- Function `operation_round_3` (src/MD4.py lines 166-171):
`left_rotate(A + ((h(B, C, D) & 0xFFFFFFFF) + X + 0x6ED9EBA1) & 0xFFFFFFFF, S)`. -/
def operation_round_3 (A B C D X S : Nat) : Nat :=
  left_rotate ((A + (((pyAnd (h B C D) 0xFFFFFFFF).toNat) + X + 0x6ED9EBA1)) &&& 0xFFFFFFFF) S

/-- Function `round_1` (src/MD4.py lines 102-127): sixteen unrolled steps.
`X[k]` is modelled by `X.getD k 0`; every index is in range whenever `X`
has the 16 entries produced by `struct.unpack`, and `md4_checked` below
accounts for the error behaviour of out-of-range indexing. -/
def round_1 (A B C D : Nat) (X : List Nat) : Nat × Nat × Nat × Nat :=
  let A := operation_round_1 A B C D (X.getD 0 0) 3
  let D := operation_round_1 D A B C (X.getD 1 0) 7
  let C := operation_round_1 C D A B (X.getD 2 0) 11
  let B := operation_round_1 B C D A (X.getD 3 0) 19
  let A := operation_round_1 A B C D (X.getD 4 0) 3
  let D := operation_round_1 D A B C (X.getD 5 0) 7
  let C := operation_round_1 C D A B (X.getD 6 0) 11
  let B := operation_round_1 B C D A (X.getD 7 0) 19
  let A := operation_round_1 A B C D (X.getD 8 0) 3
  let D := operation_round_1 D A B C (X.getD 9 0) 7
  let C := operation_round_1 C D A B (X.getD 10 0) 11
  let B := operation_round_1 B C D A (X.getD 11 0) 19
  let A := operation_round_1 A B C D (X.getD 12 0) 3
  let D := operation_round_1 D A B C (X.getD 13 0) 7
  let C := operation_round_1 C D A B (X.getD 14 0) 11
  let B := operation_round_1 B C D A (X.getD 15 0) 19
  (A, B, C, D)

/-- Function `round_2` (src/MD4.py lines 138-163). -/
def round_2 (A B C D : Nat) (X : List Nat) : Nat × Nat × Nat × Nat :=
  let A := operation_round_2 A B C D (X.getD 0 0) 3
  let D := operation_round_2 D A B C (X.getD 4 0) 5
  let C := operation_round_2 C D A B (X.getD 8 0) 9
  let B := operation_round_2 B C D A (X.getD 12 0) 13
  let A := operation_round_2 A B C D (X.getD 1 0) 3
  let D := operation_round_2 D A B C (X.getD 5 0) 5
  let C := operation_round_2 C D A B (X.getD 9 0) 9
  let B := operation_round_2 B C D A (X.getD 13 0) 13
  let A := operation_round_2 A B C D (X.getD 2 0) 3
  let D := operation_round_2 D A B C (X.getD 6 0) 5
  let C := operation_round_2 C D A B (X.getD 10 0) 9
  let B := operation_round_2 B C D A (X.getD 14 0) 13
  let A := operation_round_2 A B C D (X.getD 3 0) 3
  let D := operation_round_2 D A B C (X.getD 7 0) 5
  let C := operation_round_2 C D A B (X.getD 11 0) 9
  let B := operation_round_2 B C D A (X.getD 15 0) 13
  (A, B, C, D)

/-- Function `round_3` (src/MD4.py lines 174-199). -/
def round_3 (A B C D : Nat) (X : List Nat) : Nat × Nat × Nat × Nat :=
  let A := operation_round_3 A B C D (X.getD 0 0) 3
  let D := operation_round_3 D A B C (X.getD 8 0) 9
  let C := operation_round_3 C D A B (X.getD 4 0) 11
  let B := operation_round_3 B C D A (X.getD 12 0) 15
  let A := operation_round_3 A B C D (X.getD 2 0) 3
  let D := operation_round_3 D A B C (X.getD 10 0) 9
  let C := operation_round_3 C D A B (X.getD 6 0) 11
  let B := operation_round_3 B C D A (X.getD 14 0) 15
  let A := operation_round_3 A B C D (X.getD 1 0) 3
  let D := operation_round_3 D A B C (X.getD 9 0) 9
  let C := operation_round_3 C D A B (X.getD 5 0) 11
  let B := operation_round_3 B C D A (X.getD 13 0) 15
  let A := operation_round_3 A B C D (X.getD 3 0) 3
  let D := operation_round_3 D A B C (X.getD 11 0) 9
  let C := operation_round_3 C D A B (X.getD 7 0) 11
  let B := operation_round_3 B C D A (X.getD 15 0) 15
  (A, B, C, D)

/-- One little-endian 32-bit word from four bytes, as `struct.unpack`
computes it numerically. -/
def word_of_bytes (b0 b1 b2 b3 : Nat) : Nat :=
  b0 + 256 * b1 + 65536 * b2 + 16777216 * b3

/-- Python `struct.unpack("<16I", block)` (src/MD4.py line 66): sixteen
little-endian 32-bit words.  `struct.unpack` itself checks that the block
has exactly 64 bytes; that check lives in `unpack_words_checked`. -/
def unpack_words (block : List Nat) : List Nat :=
  (List.range 16).map fun j =>
    word_of_bytes (block.getD (4 * j) 0) (block.getD (4 * j + 1) 0)
      (block.getD (4 * j + 2) 0) (block.getD (4 * j + 3) 0)

/-- Python `struct.pack("<4L", A, B, C, D)` (src/MD4.py line 83): each word as
four little-endian bytes, words in order. -/
def pack_words (A B C D : Nat) : List Nat :=
  to_bytes_le 4 A ++ to_bytes_le 4 B ++ to_bytes_le 4 C ++ to_bytes_le 4 D

/-- The per-block body of the loop in `md4` (src/MD4.py lines 58-80):
decode the block, run the three rounds on a local copy of the state, and
only then accumulate into the state modulo `2^32`. -/
def md4_block (buffers : Nat × Nat × Nat × Nat) (block : List Nat) :
    Nat × Nat × Nat × Nat :=
  let X := unpack_words block
  let (A, B, C, D) := buffers
  let (A, B, C, D) := round_1 A B C D X
  let (A, B, C, D) := round_2 A B C D X
  let (A, B, C, D) := round_3 A B C D X
  ((A + buffers.1) &&& 0xFFFFFFFF, (B + buffers.2.1) &&& 0xFFFFFFFF,
    (C + buffers.2.2.1) &&& 0xFFFFFFFF, (D + buffers.2.2.2) &&& 0xFFFFFFFF)

/-- Function `md4` (src/MD4.py lines 43-83).  The Python block slice
`message[block_start:block_end]` is `(msg.drop block_start).take
(block_end - block_start)`; the running `buffers` list always has exactly
the four entries `A, B, C, D`, modelled as a quadruple. -/
def md4 (message : List Nat) : List Nat :=
  let initial_message_byte_length := message.length
  let msg := append_length (pad_message message) initial_message_byte_length
  let block_size_words := 16
  let num_blocks := msg.length / (4 * block_size_words)
  let final :=
    (List.range num_blocks).foldl
      (fun buffers i =>
        let block_start := i * 4 * block_size_words
        let block_end := (i + 1) * 4 * block_size_words
        let block := (msg.drop block_start).take (block_end - block_start)
        md4_block buffers block)
      (0x67452301, 0xEFCDAB89, 0x98BADCFE, 0x10325476)
  pack_words final.1 final.2.1 final.2.2.1 final.2.2.2

/-- One lowercase hexadecimal digit, as produced by Python `bytes.hex`. -/
def hex_char (n : Nat) : Char :=
  if n < 10 then Char.ofNat (48 + n) else Char.ofNat (87 + n)

/-- Python `bytes.hex()`: two lowercase hex digits per byte, bytes in
order. -/
def bytes_hex (l : List Nat) : String :=
  String.mk (l.flatMap fun b => [hex_char (b / 16), hex_char (b % 16)])

/-- Function `md4_hex_digest` (src/MD4.py lines 86-91): `md4(message).hex()`. -/
def md4_hex_digest (message : List Nat) : String :=
  bytes_hex (md4 message)

/-- UTF-8 encoding of an ASCII string, Python `s.encode("utf-8")` for the
ASCII strings appearing in the RFC 1320 test vectors. -/
def str_bytes (s : String) : List Nat :=
  s.data.map Char.toNat

/-! ## The checked pipeline

Python raises on a negative shift, on indexing past the end of a list, on
`struct.unpack` with a buffer of the wrong size and on `struct.pack` with
an out-of-range word.  The `..._checked` functions return `none` exactly
on those error conditions, so `md4_checked message = some (md4 message)`
states that no error branch is reachable. -/

/-- Plain `Option.bind`, wrapped so that long bind chains stay cheap for the
code generator. -/
@[noinline] def obind {α β : Type} (o : Option α) (k : α → Option β) : Option β :=
  o.bind k

/-- Function `left_rotate` with Python's error condition: `X >> (32 - N)` raises
for `32 - N < 0`. -/
def left_rotate_checked (X N : Nat) : Option Nat :=
  if 32 < N then none else some (left_rotate X N)

/-- Function `operation_round_1` with the shift bound checked. -/
def operation_round_1_checked (A B C D X S : Nat) : Option Nat :=
  left_rotate_checked ((A + (((pyAnd (f B C D) 0xFFFFFFFF).toNat) + X)) &&& 0xFFFFFFFF) S

/-- Function `operation_round_2` with the shift bound checked. -/
def operation_round_2_checked (A B C D X S : Nat) : Option Nat :=
  left_rotate_checked ((A + (((pyAnd (g B C D) 0xFFFFFFFF).toNat) + X + 0x5A827999)) &&& 0xFFFFFFFF) S

/-- Function `operation_round_3` with the shift bound checked. -/
def operation_round_3_checked (A B C D X S : Nat) : Option Nat :=
  left_rotate_checked ((A + (((pyAnd (h B C D) 0xFFFFFFFF).toNat) + X + 0x6ED9EBA1)) &&& 0xFFFFFFFF) S

/-- Function `round_1` with every list access `X[k]` checked. -/
def round_1_checked (A B C D : Nat) (X : List Nat) : Option (Nat × Nat × Nat × Nat) :=
  obind (X[0]?) fun x0 =>
  obind (operation_round_1_checked A B C D x0 3) fun A =>
  obind (X[1]?) fun x1 =>
  obind (operation_round_1_checked D A B C x1 7) fun D =>
  obind (X[2]?) fun x2 =>
  obind (operation_round_1_checked C D A B x2 11) fun C =>
  obind (X[3]?) fun x3 =>
  obind (operation_round_1_checked B C D A x3 19) fun B =>
  obind (X[4]?) fun x4 =>
  obind (operation_round_1_checked A B C D x4 3) fun A =>
  obind (X[5]?) fun x5 =>
  obind (operation_round_1_checked D A B C x5 7) fun D =>
  obind (X[6]?) fun x6 =>
  obind (operation_round_1_checked C D A B x6 11) fun C =>
  obind (X[7]?) fun x7 =>
  obind (operation_round_1_checked B C D A x7 19) fun B =>
  obind (X[8]?) fun x8 =>
  obind (operation_round_1_checked A B C D x8 3) fun A =>
  obind (X[9]?) fun x9 =>
  obind (operation_round_1_checked D A B C x9 7) fun D =>
  obind (X[10]?) fun x10 =>
  obind (operation_round_1_checked C D A B x10 11) fun C =>
  obind (X[11]?) fun x11 =>
  obind (operation_round_1_checked B C D A x11 19) fun B =>
  obind (X[12]?) fun x12 =>
  obind (operation_round_1_checked A B C D x12 3) fun A =>
  obind (X[13]?) fun x13 =>
  obind (operation_round_1_checked D A B C x13 7) fun D =>
  obind (X[14]?) fun x14 =>
  obind (operation_round_1_checked C D A B x14 11) fun C =>
  obind (X[15]?) fun x15 =>
  obind (operation_round_1_checked B C D A x15 19) fun B =>
  some (A, B, C, D)

/-- Function `round_2` with every list access `X[k]` checked. -/
def round_2_checked (A B C D : Nat) (X : List Nat) : Option (Nat × Nat × Nat × Nat) :=
  obind (X[0]?) fun x0 =>
  obind (operation_round_2_checked A B C D x0 3) fun A =>
  obind (X[4]?) fun x4 =>
  obind (operation_round_2_checked D A B C x4 5) fun D =>
  obind (X[8]?) fun x8 =>
  obind (operation_round_2_checked C D A B x8 9) fun C =>
  obind (X[12]?) fun x12 =>
  obind (operation_round_2_checked B C D A x12 13) fun B =>
  obind (X[1]?) fun x1 =>
  obind (operation_round_2_checked A B C D x1 3) fun A =>
  obind (X[5]?) fun x5 =>
  obind (operation_round_2_checked D A B C x5 5) fun D =>
  obind (X[9]?) fun x9 =>
  obind (operation_round_2_checked C D A B x9 9) fun C =>
  obind (X[13]?) fun x13 =>
  obind (operation_round_2_checked B C D A x13 13) fun B =>
  obind (X[2]?) fun x2 =>
  obind (operation_round_2_checked A B C D x2 3) fun A =>
  obind (X[6]?) fun x6 =>
  obind (operation_round_2_checked D A B C x6 5) fun D =>
  obind (X[10]?) fun x10 =>
  obind (operation_round_2_checked C D A B x10 9) fun C =>
  obind (X[14]?) fun x14 =>
  obind (operation_round_2_checked B C D A x14 13) fun B =>
  obind (X[3]?) fun x3 =>
  obind (operation_round_2_checked A B C D x3 3) fun A =>
  obind (X[7]?) fun x7 =>
  obind (operation_round_2_checked D A B C x7 5) fun D =>
  obind (X[11]?) fun x11 =>
  obind (operation_round_2_checked C D A B x11 9) fun C =>
  obind (X[15]?) fun x15 =>
  obind (operation_round_2_checked B C D A x15 13) fun B =>
  some (A, B, C, D)

/-- Function `round_3` with every list access `X[k]` checked. -/
def round_3_checked (A B C D : Nat) (X : List Nat) : Option (Nat × Nat × Nat × Nat) :=
  obind (X[0]?) fun x0 =>
  obind (operation_round_3_checked A B C D x0 3) fun A =>
  obind (X[8]?) fun x8 =>
  obind (operation_round_3_checked D A B C x8 9) fun D =>
  obind (X[4]?) fun x4 =>
  obind (operation_round_3_checked C D A B x4 11) fun C =>
  obind (X[12]?) fun x12 =>
  obind (operation_round_3_checked B C D A x12 15) fun B =>
  obind (X[2]?) fun x2 =>
  obind (operation_round_3_checked A B C D x2 3) fun A =>
  obind (X[10]?) fun x10 =>
  obind (operation_round_3_checked D A B C x10 9) fun D =>
  obind (X[6]?) fun x6 =>
  obind (operation_round_3_checked C D A B x6 11) fun C =>
  obind (X[14]?) fun x14 =>
  obind (operation_round_3_checked B C D A x14 15) fun B =>
  obind (X[1]?) fun x1 =>
  obind (operation_round_3_checked A B C D x1 3) fun A =>
  obind (X[9]?) fun x9 =>
  obind (operation_round_3_checked D A B C x9 9) fun D =>
  obind (X[5]?) fun x5 =>
  obind (operation_round_3_checked C D A B x5 11) fun C =>
  obind (X[13]?) fun x13 =>
  obind (operation_round_3_checked B C D A x13 15) fun B =>
  obind (X[3]?) fun x3 =>
  obind (operation_round_3_checked A B C D x3 3) fun A =>
  obind (X[11]?) fun x11 =>
  obind (operation_round_3_checked D A B C x11 9) fun D =>
  obind (X[7]?) fun x7 =>
  obind (operation_round_3_checked C D A B x7 11) fun C =>
  obind (X[15]?) fun x15 =>
  obind (operation_round_3_checked B C D A x15 15) fun B =>
  some (A, B, C, D)

/-- Python `struct.unpack("<16I", block)` raises unless the buffer has exactly
64 bytes. -/
def unpack_words_checked (block : List Nat) : Option (List Nat) :=
  if block.length = 64 then some (unpack_words block) else none

/-- Python `struct.pack("<4L", ...)` raises unless every word fits in 32 bits. -/
def pack_words_checked (A B C D : Nat) : Option (List Nat) :=
  if A < 2 ^ 32 ∧ B < 2 ^ 32 ∧ C < 2 ^ 32 ∧ D < 2 ^ 32 then
    some (pack_words A B C D)
  else none

/-- The loop body of `md4` with every error condition checked. -/
def md4_block_checked (buffers : Nat × Nat × Nat × Nat) (block : List Nat) :
    Option (Nat × Nat × Nat × Nat) :=
  (unpack_words_checked block).bind fun X =>
  (round_1_checked buffers.1 buffers.2.1 buffers.2.2.1 buffers.2.2.2 X).bind fun r1 =>
  (round_2_checked r1.1 r1.2.1 r1.2.2.1 r1.2.2.2 X).bind fun r2 =>
  (round_3_checked r2.1 r2.2.1 r2.2.2.1 r2.2.2.2 X).bind fun r3 =>
  some ((r3.1 + buffers.1) &&& 0xFFFFFFFF, (r3.2.1 + buffers.2.1) &&& 0xFFFFFFFF,
    (r3.2.2.1 + buffers.2.2.1) &&& 0xFFFFFFFF, (r3.2.2.2 + buffers.2.2.2) &&& 0xFFFFFFFF)

/-- Function `md4` with every error condition checked. -/
def md4_checked (message : List Nat) : Option (List Nat) :=
  let initial_message_byte_length := message.length
  let msg := append_length (pad_message message) initial_message_byte_length
  let block_size_words := 16
  let num_blocks := msg.length / (4 * block_size_words)
  (((List.range num_blocks).foldlM
      (fun buffers i =>
        let block_start := i * 4 * block_size_words
        let block_end := (i + 1) * 4 * block_size_words
        md4_block_checked buffers ((msg.drop block_start).take (block_end - block_start)))
      (0x67452301, 0xEFCDAB89, 0x98BADCFE, 0x10325476)) :
    Option (Nat × Nat × Nat × Nat)).bind fun final =>
  pack_words_checked final.1 final.2.1 final.2.2.1 final.2.2.2

/-! ## Specification-side definitions

These follow the wording of the specification, to be compared with the
definitions above that were translated from the source. -/

/-- The fully preprocessed message of §4.1: `append_length(pad(m), len(m))`,
exactly the byte sequence the block loop of `md4` consumes. -/
def padded (m : List Nat) : List Nat :=
  append_length (pad_message m) m.length

/-- Spec §4.3: `f(x,y,z) = (x AND y) OR ((NOT x) AND z)` on 32-bit words,
`NOT` being the 32-bit complement. -/
def f_spec (x y z : Nat) : Nat :=
  (x &&& y) ||| ((x ^^^ 0xFFFFFFFF) &&& z)

/-- Spec §4.3: `g(x,y,z) = (x AND y) OR (x AND z) OR (y AND z)`. -/
def g_spec (x y z : Nat) : Nat :=
  (x &&& y) ||| (x &&& z) ||| (y &&& z)

/-- Spec §4.3: `h(x,y,z) = x XOR y XOR z`. -/
def h_spec (x y z : Nat) : Nat :=
  x ^^^ y ^^^ z

/-- The padded message cut into consecutive 64-byte blocks, front to
back. -/
def chunks64 (l : List Nat) : List (List Nat) :=
  if l = [] then [] else l.take 64 :: chunks64 (l.drop 64)
termination_by l.length
decreasing_by
  rename_i h
  have : l.length ≠ 0 := fun hl => h (List.eq_nil_of_length_eq_zero hl)
  simp only [List.length_drop]
  omega

/-- Spec §4.5 step 4, one block: decode 16 words, run round 1 on the
entering state, round 2 on the round-1 output, round 3 on the round-2
output, and finally add the round-3 output to the entering state
component-wise modulo `2^32`. -/
def compress_spec (st : Nat × Nat × Nat × Nat) (block : List Nat) :
    Nat × Nat × Nat × Nat :=
  let X := unpack_words block
  let r1 := round_1 st.1 st.2.1 st.2.2.1 st.2.2.2 X
  let r2 := round_2 r1.1 r1.2.1 r1.2.2.1 r1.2.2.2 X
  let r3 := round_3 r2.1 r2.2.1 r2.2.2.1 r2.2.2.2 X
  ((st.1 + r3.1) % 2 ^ 32, (st.2.1 + r3.2.1) % 2 ^ 32,
    (st.2.2.1 + r3.2.2.1) % 2 ^ 32, (st.2.2.2 + r3.2.2.2) % 2 ^ 32)

/-- Spec §4.4: a table-driven round.  Sixteen steps; step `i` recomputes
the state variable whose role advances in the cycle `a, d, c, b`, from the
current values of the other three, using message word `ks[i]` and rotate
amount `ss[i mod 4]`.  The argument order of each step is the
corresponding right rotation of `(a, b, c, d)`. -/
def sched_round (op : Nat → Nat → Nat → Nat → Nat → Nat → Nat)
    (ks ss : List Nat) (A B C D : Nat) (X : List Nat) : Nat × Nat × Nat × Nat :=
  (List.range 16).foldl
    (fun st i =>
      let (a, b, c, d) := st
      let k := ks.getD i 0
      let s := ss.getD (i % 4) 0
      match i % 4 with
      | 0 => (op a b c d (X.getD k 0) s, b, c, d)
      | 1 => (a, b, c, op d a b c (X.getD k 0) s)
      | 2 => (a, b, op c d a b (X.getD k 0) s, d)
      | _ => (a, op b c d a (X.getD k 0) s, c, d))
    (A, B, C, D)

/-- Word schedule of round 1 (spec §4.4 table). -/
def word_order_1 : List Nat := [0, 1, 2, 3, 4, 5, 6, 7, 8, 9, 10, 11, 12, 13, 14, 15]

/-- Word schedule of round 2 (spec §4.4 table). -/
def word_order_2 : List Nat := [0, 4, 8, 12, 1, 5, 9, 13, 2, 6, 10, 14, 3, 7, 11, 15]

/-- Word schedule of round 3 (spec §4.4 table). -/
def word_order_3 : List Nat := [0, 8, 4, 12, 2, 10, 6, 14, 1, 9, 5, 13, 3, 11, 7, 15]

/-- The state of the `md4` block loop on input `m` after `k` blocks have
been processed (`k = 0` is the freshly initialized state). -/
def md4_state_after (m : List Nat) (k : Nat) : Nat × Nat × Nat × Nat :=
  let msg := append_length (pad_message m) m.length
  let block_size_words := 16
  (List.range k).foldl
    (fun buffers i =>
      let block_start := i * 4 * block_size_words
      let block_end := (i + 1) * 4 * block_size_words
      md4_block buffers ((msg.drop block_start).take (block_end - block_start)))
    (0x67452301, 0xEFCDAB89, 0x98BADCFE, 0x10325476)

/-- All four words of a state quadruple are 32-bit values. -/
def in_range_state (st : Nat × Nat × Nat × Nat) : Prop :=
  st.1 < 2 ^ 32 ∧ st.2.1 < 2 ^ 32 ∧ st.2.2.1 < 2 ^ 32 ∧ st.2.2.2 < 2 ^ 32

/-- A character is a lowercase hexadecimal digit (ASCII `0`-`9` or
`a`-`f`). -/
def is_lower_hex (c : Char) : Prop :=
  (48 ≤ c.toNat ∧ c.toNat ≤ 57) ∨ (97 ≤ c.toNat ∧ c.toNat ≤ 102)

/-! ## Bridge lemmas -/

theorem and_mask_eq_mod (x : Nat) : x &&& 0xFFFFFFFF = x % 2 ^ 32 := by
  have hm : (0xFFFFFFFF : Nat) = 2 ^ 32 - 1 := by norm_num
  rw [hm, Nat.and_pow_two_sub_one_eq_mod]

theorem and_mask64_eq_mod (x : Nat) : x &&& ((1 <<< 64) - 1) = x % 2 ^ 64 := by
  have hm : ((1 <<< 64) - 1 : Nat) = 2 ^ 64 - 1 := by
    rw [Nat.shiftLeft_eq, one_mul]
  rw [hm, Nat.and_pow_two_sub_one_eq_mod]

theorem left_rotate_lt (X N : Nat) : left_rotate X N < 2 ^ 32 := by
  rw [left_rotate, and_mask_eq_mod]
  exact Nat.mod_lt _ (by norm_num)

theorem operation_round_1_lt (A B C D X S : Nat) :
    operation_round_1 A B C D X S < 2 ^ 32 :=
  left_rotate_lt _ _

theorem operation_round_2_lt (A B C D X S : Nat) :
    operation_round_2 A B C D X S < 2 ^ 32 :=
  left_rotate_lt _ _

theorem operation_round_3_lt (A B C D X S : Nat) :
    operation_round_3 A B C D X S < 2 ^ 32 :=
  left_rotate_lt _ _

theorem ldiff_eq_and_xor (a b : Nat) : Nat.ldiff a b = a &&& (a ^^^ b) := by
  apply Nat.eq_of_testBit_eq
  intro i
  simp only [Nat.testBit_ldiff, Nat.testBit_and, Nat.testBit_xor]
  cases a.testBit i <;> cases b.testBit i <;> rfl

theorem pyNot_eq_lnot (x : Int) : pyNot x = Int.lnot x := by
  cases x with
  | ofNat m => simp only [pyNot, Int.lnot, Int.negSucc_eq, Int.ofNat_eq_coe]; ring
  | negSucc m => simp only [pyNot, Int.lnot, Int.negSucc_eq]; ring

theorem pyAnd_eq_land (a b : Int) : pyAnd a b = Int.land a b := by
  cases a <;> cases b <;> simp [pyAnd, Int.land, ldiff_eq_and_xor]

theorem pyOr_eq_lor (a b : Int) : pyOr a b = Int.lor a b := by
  cases a <;> cases b <;> simp [pyOr, Int.lor, ldiff_eq_and_xor]

theorem pyXor_eq_xor (a b : Int) : pyXor a b = Int.xor a b := by
  cases a <;> cases b <;> simp [pyXor, Int.xor]

/-- The byte length of the fully padded message, in closed form. -/
theorem padded_length (m : List Nat) :
    (padded m).length =
      (m.length + 1) + ((448 - ((m.length : Int) + 1) * 8) % 512).toNat / 8 + 8 := by
  simp only [padded, pad_message, append_length, to_bytes_le, List.length_append,
    List.length_map, List.length_range, List.length_replicate, List.length_cons,
    List.length_nil]
  push_cast
  ring_nf

theorem padded_mod_64 (m : List Nat) : (padded m).length % 64 = 0 := by
  have hL := padded_length m
  omega

theorem padded_structure (m : List Nat) :
    ∃ z, padded m =
        m ++ [0x80] ++ List.replicate z 0 ++ to_bytes_le 8 ((m.length * 8) % 2 ^ 64) ∧
      (m.length + 1 + z) % 64 = 56 := by
  have hL := padded_length m
  refine ⟨((448 - ((m.length : Int) + 1) * 8) % 512).toNat / 8, ?_, by omega⟩
  simp only [padded, pad_message, append_length, and_mask64_eq_mod, List.append_assoc,
    List.length_append, List.length_cons, List.length_nil]
  norm_num

/-- C5: for every message the padder output has length a multiple of 64,
length at least `len(m) + 9`, and consists of the message, `0x80`, a run
of zero bytes making the byte length 56 mod 64, and the 8-byte
little-endian original bit length mod `2^64`; the empty message pads to
`0x80`, 55 zero bytes and an 8-byte zero length field. -/
theorem pad_message_spec (m : List Nat) :
    (padded m).length % 64 = 0 ∧
    m.length + 9 ≤ (padded m).length ∧
    (∃ z, padded m =
        m ++ [0x80] ++ List.replicate z 0 ++ to_bytes_le 8 ((m.length * 8) % 2 ^ 64) ∧
        (m.length + 1 + z) % 64 = 56) ∧
    padded [] = [0x80] ++ List.replicate 55 0 ++ List.replicate 8 0 := by
  have hL := padded_length m
  exact ⟨padded_mod_64 m, by omega, padded_structure m, by decide⟩

theorem pyAnd_coe (a b : Nat) : pyAnd (a : Int) (b : Int) = ((a &&& b : Nat) : Int) := rfl

theorem pyOr_coe (a b : Nat) : pyOr (a : Int) (b : Int) = ((a ||| b : Nat) : Int) := rfl

theorem pyXor_coe (a b : Nat) : pyXor (a : Int) (b : Int) = ((a ^^^ b : Nat) : Int) := rfl

theorem pyAnd_negSucc_coe (a b : Nat) :
    pyAnd (Int.negSucc a) (b : Int) = ((b &&& (b ^^^ a) : Nat) : Int) := rfl

theorem pyNot_coe (a : Nat) : pyNot (a : Int) = Int.negSucc a := by
  simp only [pyNot, Int.negSucc_eq]
  ring

/-- Function `f` on coerced naturals, still in raw `z AND (z XOR x)` form. -/
theorem f_coe (x y z : Nat) :
    f (x : Int) (y : Int) (z : Int) = (((x &&& y) ||| (z &&& (z ^^^ x)) : Nat) : Int) := by
  rw [f, pyNot_coe, pyAnd_coe, pyAnd_negSucc_coe, pyOr_coe]

theorem g_coe (x y z : Nat) :
    g (x : Int) (y : Int) (z : Int) = (((x &&& y) ||| (x &&& z) ||| (y &&& z) : Nat) : Int) := by
  rw [g, pyAnd_coe, pyAnd_coe, pyAnd_coe, pyOr_coe, pyOr_coe]

theorem h_coe (x y z : Nat) :
    h (x : Int) (y : Int) (z : Int) = ((x ^^^ y ^^^ z : Nat) : Int) := by
  rw [h, pyXor_coe, pyXor_coe]

/-- Term `z AND (z XOR x)` is `(NOT x) AND z` once `NOT` is the 32-bit
complement and `z` is a 32-bit value. -/
theorem and_xor_eq_not_and (x z : Nat) (hz : z < 2 ^ 32) :
    z &&& (z ^^^ x) = (x ^^^ 0xFFFFFFFF) &&& z := by
  have hmask : (0xFFFFFFFF : Nat) = 2 ^ 32 - 1 := by norm_num
  apply Nat.eq_of_testBit_eq
  intro i
  simp only [Nat.testBit_and, Nat.testBit_xor, hmask, Nat.testBit_two_pow_sub_one]
  rcases Nat.lt_or_ge i 32 with hi | hi
  · have : decide (i < 32) = true := by simp [hi]
    rw [this]
    cases z.testBit i <;> cases x.testBit i <;> rfl
  · have hdec : decide (i < 32) = false := by simp; omega
    have hz0 : z.testBit i = false :=
      Nat.testBit_lt_two_pow (lt_of_lt_of_le hz (Nat.pow_le_pow_right (by norm_num) hi))
    rw [hdec, hz0]
    cases x.testBit i <;> rfl

theorem f_spec_lt (x y z : Nat) (hy : y < 2 ^ 32) (hz : z < 2 ^ 32) :
    f_spec x y z < 2 ^ 32 :=
  Nat.or_lt_two_pow (Nat.lt_of_le_of_lt Nat.and_le_right hy)
    (Nat.lt_of_le_of_lt Nat.and_le_right hz)

theorem g_spec_lt (x y z : Nat) (hy : y < 2 ^ 32) (hz : z < 2 ^ 32) :
    g_spec x y z < 2 ^ 32 :=
  Nat.or_lt_two_pow
    (Nat.or_lt_two_pow (Nat.lt_of_le_of_lt Nat.and_le_right hy)
      (Nat.lt_of_le_of_lt Nat.and_le_right hz))
    (Nat.lt_of_le_of_lt Nat.and_le_right hz)

theorem h_spec_lt (x y z : Nat) (hx : x < 2 ^ 32) (hy : y < 2 ^ 32) (hz : z < 2 ^ 32) :
    h_spec x y z < 2 ^ 32 :=
  Nat.xor_lt_two_pow (Nat.xor_lt_two_pow hx hy) hz

/-- C6: on 32-bit inputs, `f` is "if x then y else z" per bit, `g` is the
bitwise majority, `h` is the bitwise parity, and all three results are
32-bit values (no sign extension). -/
theorem f_g_h_spec (x y z : Nat) (hx : x < 2 ^ 32) (hy : y < 2 ^ 32) (hz : z < 2 ^ 32) :
    f (x : Int) (y : Int) (z : Int) = ((f_spec x y z : Nat) : Int) ∧
    g (x : Int) (y : Int) (z : Int) = ((g_spec x y z : Nat) : Int) ∧
    h (x : Int) (y : Int) (z : Int) = ((h_spec x y z : Nat) : Int) ∧
    f_spec x y z < 2 ^ 32 ∧ g_spec x y z < 2 ^ 32 ∧ h_spec x y z < 2 ^ 32 := by
  refine ⟨?_, g_coe x y z, h_coe x y z, f_spec_lt x y z hy hz, g_spec_lt x y z hy hz,
    h_spec_lt x y z hx hy hz⟩
  rw [f_coe, f_spec, and_xor_eq_not_and x z hz]

/-- Closed witness for `f_g_h_spec`. -/
theorem f_g_h_spec_witness :
    f ((3 : Nat) : Int) ((5 : Nat) : Int) ((9 : Nat) : Int) = ((f_spec 3 5 9 : Nat) : Int) ∧
    g ((3 : Nat) : Int) ((5 : Nat) : Int) ((9 : Nat) : Int) = ((g_spec 3 5 9 : Nat) : Int) ∧
    h ((3 : Nat) : Int) ((5 : Nat) : Int) ((9 : Nat) : Int) = ((h_spec 3 5 9 : Nat) : Int) ∧
    f_spec 3 5 9 < 2 ^ 32 ∧ g_spec 3 5 9 < 2 ^ 32 ∧ h_spec 3 5 9 < 2 ^ 32 :=
  f_g_h_spec 3 5 9 (by norm_num) (by norm_num) (by norm_num)

/-- C7: `left_rotate` is the masked-to-`mod 2^32` rotation formula, it is
the circular left shift (low `32 - n` bits move up by `n` places, high `n`
bits wrap to the bottom), and its value is a 32-bit value. -/
theorem left_rotate_spec (x n : Nat) (hx : x < 2 ^ 32) (h1 : 1 ≤ n) (h2 : n ≤ 31) :
    left_rotate x n = ((x <<< n) ||| (x >>> (32 - n))) % 2 ^ 32 ∧
    left_rotate x n = (x % 2 ^ (32 - n)) * 2 ^ n + x / 2 ^ (32 - n) ∧
    left_rotate x n < 2 ^ 32 := by
  have hmod : left_rotate x n = ((x <<< n) ||| (x >>> (32 - n))) % 2 ^ 32 := by
    rw [left_rotate, and_mask_eq_mod]
  refine ⟨hmod, ?_, by rw [hmod]; exact Nat.mod_lt _ (by norm_num)⟩
  rw [hmod, Nat.shiftLeft_eq, Nat.shiftRight_eq_div_pow]
  have hPQ : 2 ^ (32 - n) * 2 ^ n = 2 ^ 32 := by
    rw [← pow_add]
    congr 1
    omega
  have hq : x / 2 ^ (32 - n) < 2 ^ n := by
    apply Nat.div_lt_of_lt_mul
    calc x < 2 ^ 32 := hx
      _ = 2 ^ (32 - n) * 2 ^ n := hPQ.symm
  rw [mul_comm x (2 ^ n), ← Nat.mul_add_lt_is_or hq x]
  set d := x / 2 ^ (32 - n) with hd
  set r := x % 2 ^ (32 - n) with hr
  have hx_eq : x = 2 ^ (32 - n) * d + r := (Nat.div_add_mod x _).symm
  have hrQ : r < 2 ^ (32 - n) := Nat.mod_lt x (by positivity)
  rw [show 2 ^ n * x + d = (r * 2 ^ n + d) + d * 2 ^ 32 from by rw [hx_eq, ← hPQ]; ring]
  rw [Nat.add_mul_mod_self_right]
  apply Nat.mod_eq_of_lt
  calc r * 2 ^ n + d < r * 2 ^ n + 2 ^ n := by omega
    _ = (r + 1) * 2 ^ n := by ring
    _ ≤ 2 ^ (32 - n) * 2 ^ n := Nat.mul_le_mul_right _ (by omega)
    _ = 2 ^ 32 := hPQ

/-- Closed witness for `left_rotate_spec`. -/
theorem left_rotate_spec_witness :
    left_rotate 5 7 = ((5 <<< 7) ||| (5 >>> (32 - 7))) % 2 ^ 32 ∧
    left_rotate 5 7 = (5 % 2 ^ (32 - 7)) * 2 ^ 7 + 5 / 2 ^ (32 - 7) ∧
    left_rotate 5 7 < 2 ^ 32 :=
  left_rotate_spec 5 7 (by norm_num) (by norm_num) (by norm_num)

theorem pyAnd_coe_mask (a : Nat) :
    pyAnd ((a : Nat) : Int) (0xFFFFFFFF : Int) = ((a &&& 0xFFFFFFFF : Nat) : Int) := rfl

theorem op1_formula (a b c d x s : Nat) (hc : c < 2 ^ 32) (hd : d < 2 ^ 32) :
    operation_round_1 a b c d x s = left_rotate ((a + f_spec b c d + x) % 2 ^ 32) s := by
  simp only [operation_round_1, f_coe, pyAnd_coe_mask, Int.toNat_ofNat, and_mask_eq_mod]
  rw [show ((b &&& c) ||| (d &&& (d ^^^ b))) = f_spec b c d from by
    rw [f_spec, and_xor_eq_not_and b d hd]]
  refine congrArg (fun t => left_rotate t s) ?_
  have := f_spec_lt b c d hc hd
  omega

theorem op2_formula (a b c d x s : Nat) (hc : c < 2 ^ 32) (hd : d < 2 ^ 32) :
    operation_round_2 a b c d x s =
      left_rotate ((a + g_spec b c d + x + 0x5A827999) % 2 ^ 32) s := by
  simp only [operation_round_2, g_coe, pyAnd_coe_mask, Int.toNat_ofNat, and_mask_eq_mod]
  rw [show ((b &&& c) ||| (b &&& d) ||| (c &&& d)) = g_spec b c d from rfl]
  refine congrArg (fun t => left_rotate t s) ?_
  have := g_spec_lt b c d hc hd
  omega

theorem op3_formula (a b c d x s : Nat) (hb : b < 2 ^ 32) (hc : c < 2 ^ 32)
    (hd : d < 2 ^ 32) :
    operation_round_3 a b c d x s =
      left_rotate ((a + h_spec b c d + x + 0x6ED9EBA1) % 2 ^ 32) s := by
  simp only [operation_round_3, h_coe, pyAnd_coe_mask, Int.toNat_ofNat, and_mask_eq_mod]
  rw [show (b ^^^ c ^^^ d) = h_spec b c d from rfl]
  refine congrArg (fun t => left_rotate t s) ?_
  have := h_spec_lt b c d hb hc hd
  omega

/-- C4: the elementary steps of the three rounds are
`rotl((a + f(b,c,d) + x) mod 2^32, s)` with no additive constant,
`rotl((a + g(b,c,d) + x + 0x5A827999) mod 2^32, s)` and
`rotl((a + h(b,c,d) + x + 0x6ED9EBA1) mod 2^32, s)`, every intermediate
sum wrapping modulo `2^32`. -/
theorem operation_rounds_formula (a b c d x s : Nat) (hb : b < 2 ^ 32) (hc : c < 2 ^ 32)
    (hd : d < 2 ^ 32) :
    operation_round_1 a b c d x s = left_rotate ((a + f_spec b c d + x) % 2 ^ 32) s ∧
    operation_round_2 a b c d x s =
      left_rotate ((a + g_spec b c d + x + 0x5A827999) % 2 ^ 32) s ∧
    operation_round_3 a b c d x s =
      left_rotate ((a + h_spec b c d + x + 0x6ED9EBA1) % 2 ^ 32) s :=
  ⟨op1_formula a b c d x s hc hd, op2_formula a b c d x s hc hd,
    op3_formula a b c d x s hb hc hd⟩

/-- Closed witness for `operation_rounds_formula`. -/
theorem operation_rounds_formula_witness :
    operation_round_1 1 2 3 4 5 7 = left_rotate ((1 + f_spec 2 3 4 + 5) % 2 ^ 32) 7 ∧
    operation_round_2 1 2 3 4 5 7 =
      left_rotate ((1 + g_spec 2 3 4 + 5 + 0x5A827999) % 2 ^ 32) 7 ∧
    operation_round_3 1 2 3 4 5 7 =
      left_rotate ((1 + h_spec 2 3 4 + 5 + 0x6ED9EBA1) % 2 ^ 32) 7 :=
  operation_rounds_formula 1 2 3 4 5 7 (by norm_num) (by norm_num) (by norm_num)

/-- C3: each round is the table-driven 16-step schedule: the recomputed
variable cycles `a, d, c, b` on the freshest values of the other three,
round 1 uses word order `0..15` with rotate cycle `3,7,11,19`, round 2
uses `0,4,8,12,1,5,9,13,2,6,10,14,3,7,11,15` with `3,5,9,13`, and round 3
uses `0,8,4,12,2,10,6,14,1,9,5,13,3,11,7,15` with `3,9,11,15`. -/
theorem rounds_schedule (A B C D : Nat) (X : List Nat) :
    round_1 A B C D X = sched_round operation_round_1 word_order_1 [3, 7, 11, 19] A B C D X ∧
    round_2 A B C D X = sched_round operation_round_2 word_order_2 [3, 5, 9, 13] A B C D X ∧
    round_3 A B C D X = sched_round operation_round_3 word_order_3 [3, 9, 11, 15] A B C D X :=
  ⟨rfl, rfl, rfl⟩

/-- C1: the five RFC 1320 known-answer vectors, byte-for-byte. -/
theorem md4_hex_digest_rfc1320 :
    md4_hex_digest (str_bytes "") = "31d6cfe0d16ae931b73c59d7e0c089c0" ∧
    md4_hex_digest (str_bytes "a") = "bde52cb31de33e46245e05fbdbd6fb24" ∧
    md4_hex_digest (str_bytes "abc") = "a448017aaf21d8525fc10ae87aa6729d" ∧
    md4_hex_digest (str_bytes "message digest") = "d9130a8164549fe818874806e1c7014b" ∧
    md4_hex_digest (str_bytes "abcdefghijklmnopqrstuvwxyz") =
      "d79e1c308aa5bbcdeea8ed63df412da9" :=
  ⟨by decide, by decide, by decide, by decide, by decide⟩

/-! ## Digest shape (C8) -/

theorem bytes_hex_data (l : List Nat) :
    (bytes_hex l).data = l.flatMap fun b => [hex_char (b / 16), hex_char (b % 16)] := rfl

theorem flat_hex_length (l : List Nat) :
    (l.flatMap fun b => [hex_char (b / 16), hex_char (b % 16)]).length = 2 * l.length := by
  induction l with
  | nil => rfl
  | cons b t ih => simp only [List.flatMap_cons, List.length_append, List.length_cons,
      List.length_nil, ih]; omega

theorem flat_hex_getD (l : List Nat) (i : Nat) (hi : i < l.length) :
    (l.flatMap fun b => [hex_char (b / 16), hex_char (b % 16)]).getD (2 * i) (Char.ofNat 0) =
      hex_char (l.getD i 0 / 16) ∧
    (l.flatMap fun b => [hex_char (b / 16), hex_char (b % 16)]).getD (2 * i + 1) (Char.ofNat 0) =
      hex_char (l.getD i 0 % 16) := by
  induction l generalizing i with
  | nil => simp at hi
  | cons b t ih =>
    cases i with
    | zero => exact ⟨rfl, rfl⟩
    | succ j =>
      have h2 : 2 * (j + 1) = (2 * j + 1) + 1 := by ring
      have h3 : 2 * (j + 1) + 1 = ((2 * j + 1) + 1) + 1 := by ring
      simp only [List.flatMap_cons, List.cons_append, List.nil_append, h2, h3,
        List.getD_eq_getElem?_getD, List.getElem?_cons_succ, List.getD_cons_succ]
      have := ih j (by simpa using Nat.lt_of_succ_lt_succ hi)
      simp only [List.getD_eq_getElem?_getD] at this
      simpa using this

theorem md4_length (m : List Nat) : (md4 m).length = 16 := by
  simp only [md4, pack_words, to_bytes_le, List.length_append, List.length_map,
    List.length_range]

theorem md4_bytes_lt (m : List Nat) : ∀ b ∈ md4 m, b < 256 := by
  intro b hb
  simp only [md4, pack_words, to_bytes_le, List.mem_append, List.mem_map,
    List.mem_range] at hb
  rcases hb with ((⟨i, _, rfl⟩ | ⟨i, _, rfl⟩) | ⟨i, _, rfl⟩) | ⟨i, _, rfl⟩ <;>
    exact lt_of_le_of_lt Nat.and_le_right (by norm_num)

theorem hex_char_lower (v : Nat) (hv : v < 16) : is_lower_hex (hex_char v) := by
  unfold is_lower_hex
  exact (by decide :
    ∀ w, w < 16 → (48 ≤ (hex_char w).toNat ∧ (hex_char w).toNat ≤ 57) ∨
      (97 ≤ (hex_char w).toNat ∧ (hex_char w).toNat ≤ 102)) v hv

/-- C8: the digest always has exactly 16 bytes, and the hex digest is the
32-character string of lowercase hex digits that encodes those bytes two
digits per byte, in the order they were serialized (no reversal). -/
theorem digest_hex_spec (m : List Nat) :
    (md4 m).length = 16 ∧
    (md4_hex_digest m).data.length = 32 ∧
    (∀ c ∈ (md4_hex_digest m).data, is_lower_hex c) ∧
    (∀ i, i < 16 →
      (md4_hex_digest m).data.getD (2 * i) (Char.ofNat 0) =
        hex_char ((md4 m).getD i 0 / 16) ∧
      (md4_hex_digest m).data.getD (2 * i + 1) (Char.ofNat 0) =
        hex_char ((md4 m).getD i 0 % 16)) := by
  have hlen := md4_length m
  have hdata : (md4_hex_digest m).data =
      (md4 m).flatMap fun b => [hex_char (b / 16), hex_char (b % 16)] := rfl
  refine ⟨hlen, ?_, ?_, ?_⟩
  · rw [hdata, flat_hex_length, hlen]
  · intro c hc
    rw [hdata] at hc
    simp only [List.mem_flatMap, List.mem_cons, List.not_mem_nil, or_false] at hc
    obtain ⟨b, hb, hcmem⟩ := hc
    have hb256 := md4_bytes_lt m b hb
    rcases hcmem with rfl | rfl
    · exact hex_char_lower _ (by omega)
    · exact hex_char_lower _ (by omega)
  · intro i hi
    rw [hdata]
    exact flat_hex_getD (md4 m) i (by omega)

/-- Closed witness for `digest_hex_spec`. -/
theorem digest_hex_spec_witness :
    (md4 []).length = 16 ∧
    (md4_hex_digest []).data.getD 6 (Char.ofNat 0) = hex_char ((md4 []).getD 3 0 / 16) := by
  have h := digest_hex_spec []
  exact ⟨h.1, ((h.2.2.2 3 (by norm_num)).1 :)⟩

/-! ## The block fold (C2) -/

theorem chunks64_eq (l : List Nat) :
    chunks64 l = if l = [] then [] else l.take 64 :: chunks64 (l.drop 64) := by
  rw [chunks64]

theorem md4_block_eq_compress (st : Nat × Nat × Nat × Nat) (block : List Nat) :
    md4_block st block = compress_spec st block := by
  obtain ⟨a, b, c, d⟩ := st
  simp only [md4_block, compress_spec]
  rcases h1 : round_1 a b c d (unpack_words block) with ⟨A1, B1, C1, D1⟩
  rcases h2 : round_2 A1 B1 C1 D1 (unpack_words block) with ⟨A2, B2, C2, D2⟩
  rcases h3 : round_3 A2 B2 C2 D2 (unpack_words block) with ⟨A3, B3, C3, D3⟩
  simp only [h1, h2, h3, and_mask_eq_mod, Prod.mk.injEq]
  omega

theorem range_fold_eq_chunks
    (ph : (Nat × Nat × Nat × Nat) → List Nat → Nat × Nat × Nat × Nat) :
    ∀ (n : Nat) (l : List Nat) (s : Nat × Nat × Nat × Nat), l.length = 64 * n →
      (List.range n).foldl (fun st i => ph st ((l.drop (i * 64)).take 64)) s =
        (chunks64 l).foldl ph s := by
  intro n
  induction n with
  | zero =>
    intro l s hl
    have hnil : l = [] := List.eq_nil_of_length_eq_zero (by omega)
    subst hnil
    rw [chunks64_eq]
    simp
  | succ k ih =>
    intro l s hl
    have hne : l ≠ [] := by
      intro hcon
      rw [hcon] at hl
      simp at hl
    rw [chunks64_eq, if_neg hne, List.foldl_cons, List.range_succ_eq_map,
      List.foldl_cons, List.foldl_map]
    have h0 : (l.drop (0 * 64)).take 64 = l.take 64 := by norm_num
    rw [h0]
    have hrec := ih (l.drop 64) (ph s (l.take 64))
      (by simp only [List.length_drop]; omega)
    rw [← hrec]
    apply List.foldl_ext
    intro st i hmem
    dsimp only
    rw [List.drop_drop, show Nat.succ i * 64 = 64 + i * 64 from by omega]

theorem md4_blocks (m : List Nat) :
    md4 m = (fun st : Nat × Nat × Nat × Nat =>
        pack_words st.1 st.2.1 st.2.2.1 st.2.2.2)
      ((List.range ((padded m).length / 64)).foldl
        (fun st i => md4_block st (((padded m).drop (i * 64)).take 64))
        (0x67452301, 0xEFCDAB89, 0x98BADCFE, 0x10325476)) := by
  have hfold : (List.range ((padded m).length / (4 * 16))).foldl
      (fun buffers i => md4_block buffers
        (((padded m).drop (i * 4 * 16)).take ((i + 1) * 4 * 16 - i * 4 * 16)))
      (0x67452301, 0xEFCDAB89, 0x98BADCFE, 0x10325476) =
      (List.range ((padded m).length / 64)).foldl
        (fun st i => md4_block st (((padded m).drop (i * 64)).take 64))
        (0x67452301, 0xEFCDAB89, 0x98BADCFE, 0x10325476) := by
    rw [show (padded m).length / (4 * 16) = (padded m).length / 64 from by norm_num]
    apply List.foldl_ext
    intro st i hmem
    rw [show (i + 1) * 4 * 16 - i * 4 * 16 = 64 from by omega,
      show i * 4 * 16 = i * 64 from by ring]
  simp only [md4]
  rw [show append_length (pad_message m) m.length = padded m from rfl, hfold]

/-- C2: `md4` is the sequential fold of the per-block compression over the
64-byte blocks of the padded message, in order; each block runs round 1 on
the entering state, round 2 on the round-1 output, round 3 on the round-2
output, then replaces the state by entering state plus round-3 output
modulo `2^32`; the digest serializes the final `(A, B, C, D)` as 16
little-endian bytes, word by word. -/
theorem md4_as_block_fold (m : List Nat) :
    md4 m =
      (fun st : Nat × Nat × Nat × Nat =>
          to_bytes_le 4 st.1 ++ to_bytes_le 4 st.2.1 ++ to_bytes_le 4 st.2.2.1 ++
            to_bytes_le 4 st.2.2.2)
        ((chunks64 (padded m)).foldl compress_spec
          (0x67452301, 0xEFCDAB89, 0x98BADCFE, 0x10325476)) := by
  rw [md4_blocks m]
  have hmod : (padded m).length % 64 = 0 := padded_mod_64 m
  have hlen : (padded m).length = 64 * ((padded m).length / 64) := by omega
  rw [range_fold_eq_chunks md4_block ((padded m).length / 64) (padded m) _ hlen]
  have hfold2 : ∀ (cs : List (List Nat)) s, cs.foldl md4_block s = cs.foldl compress_spec s :=
    fun cs s => List.foldl_ext _ _ s fun st blk _ => md4_block_eq_compress st blk
  rw [hfold2]
  rfl

/-! ## Range invariants (C10) -/

theorem and_mask_lt (x : Nat) : x &&& 0xFFFFFFFF < 2 ^ 32 := by
  rw [and_mask_eq_mod]
  exact Nat.mod_lt _ (by norm_num)

theorem round_1_in_range (a b c d : Nat) (X : List Nat) :
    in_range_state (round_1 a b c d X) :=
  ⟨operation_round_1_lt _ _ _ _ _ _, operation_round_1_lt _ _ _ _ _ _,
    operation_round_1_lt _ _ _ _ _ _, operation_round_1_lt _ _ _ _ _ _⟩

theorem round_2_in_range (a b c d : Nat) (X : List Nat) :
    in_range_state (round_2 a b c d X) :=
  ⟨operation_round_2_lt _ _ _ _ _ _, operation_round_2_lt _ _ _ _ _ _,
    operation_round_2_lt _ _ _ _ _ _, operation_round_2_lt _ _ _ _ _ _⟩

theorem round_3_in_range (a b c d : Nat) (X : List Nat) :
    in_range_state (round_3 a b c d X) :=
  ⟨operation_round_3_lt _ _ _ _ _ _, operation_round_3_lt _ _ _ _ _ _,
    operation_round_3_lt _ _ _ _ _ _, operation_round_3_lt _ _ _ _ _ _⟩

theorem md4_block_in_range (st : Nat × Nat × Nat × Nat) (block : List Nat) :
    in_range_state (md4_block st block) := by
  obtain ⟨a, b, c, d⟩ := st
  exact ⟨and_mask_lt _, and_mask_lt _, and_mask_lt _, and_mask_lt _⟩

theorem getD_lt_256 (l : List Nat) (hb : ∀ b ∈ l, b < 256) (k : Nat) : l.getD k 0 < 256 := by
  rw [List.getD_eq_getElem?_getD]
  cases hk : l[k]? with
  | none => norm_num
  | some v => exact hb v (List.getElem?_mem hk)

theorem unpack_words_lt (block : List Nat) (hb : ∀ b ∈ block, b < 256) :
    ∀ w ∈ unpack_words block, w < 2 ^ 32 := by
  intro w hw
  simp only [unpack_words, List.mem_map, List.mem_range] at hw
  obtain ⟨j, -, rfl⟩ := hw
  have e0 := getD_lt_256 block hb (4 * j)
  have e1 := getD_lt_256 block hb (4 * j + 1)
  have e2 := getD_lt_256 block hb (4 * j + 2)
  have e3 := getD_lt_256 block hb (4 * j + 3)
  rw [word_of_bytes]
  omega

theorem padded_bytes_lt (m : List Nat) (hm : ∀ b ∈ m, b < 256) :
    ∀ b ∈ padded m, b < 256 := by
  intro b hb
  obtain ⟨z, hz, -⟩ := padded_structure m
  rw [hz] at hb
  simp only [List.append_assoc, List.mem_append, List.mem_replicate, List.mem_cons,
    List.not_mem_nil, or_false, to_bytes_le, List.mem_map, List.mem_range] at hb
  rcases hb with hb | rfl | ⟨-, rfl⟩ | ⟨i, -, rfl⟩
  · exact hm b hb
  · norm_num
  · norm_num
  · exact lt_of_le_of_lt Nat.and_le_right (by norm_num)

theorem chunks64_mem_subset :
    ∀ (n : Nat) (l : List Nat), l.length ≤ n → ∀ blk ∈ chunks64 l, ∀ b ∈ blk, b ∈ l := by
  intro n
  induction n with
  | zero =>
    intro l hl blk hblk
    have hnil : l = [] := List.eq_nil_of_length_eq_zero (by omega)
    subst hnil
    rw [chunks64_eq] at hblk
    simp at hblk
  | succ k ih =>
    intro l hl blk hblk b hb
    rcases eq_or_ne l [] with rfl | hne
    · rw [chunks64_eq] at hblk
      simp at hblk
    · rw [chunks64_eq, if_neg hne] at hblk
      rcases List.mem_cons.mp hblk with rfl | htail
      · exact List.take_subset _ _ hb
      · have hdl : (l.drop 64).length ≤ k := by
          simp only [List.length_drop]
          omega
        exact List.drop_subset _ _ (ih (l.drop 64) hdl blk htail b hb)

theorem md4_state_after_succ (m : List Nat) (n : Nat) :
    md4_state_after m (n + 1) =
      md4_block (md4_state_after m n)
        (((append_length (pad_message m) m.length).drop (n * 4 * 16)).take
          ((n + 1) * 4 * 16 - n * 4 * 16)) := by
  simp only [md4_state_after, List.range_succ, List.foldl_append, List.foldl_cons,
    List.foldl_nil]

theorem md4_state_after_in_range (m : List Nat) (k : Nat) :
    in_range_state (md4_state_after m k) := by
  induction k with
  | zero =>
    have h0 : md4_state_after m 0 = (0x67452301, 0xEFCDAB89, 0x98BADCFE, 0x10325476) := rfl
    rw [h0]
    exact ⟨by norm_num, by norm_num, by norm_num, by norm_num⟩
  | succ n ih =>
    rw [md4_state_after_succ]
    exact md4_block_in_range _ _

/-- C10: every value held in the state words `A, B, C, D` during an `md4`
computation is a 32-bit value: the initial constants, every decoded
message word of every block, every round-step output, every full round
output, every per-block accumulation, and the running state after any
number of blocks. -/
theorem state_words_in_range (m : List Nat) (hm : ∀ b ∈ m, b < 256) :
    in_range_state (0x67452301, 0xEFCDAB89, 0x98BADCFE, 0x10325476) ∧
    (∀ blk ∈ chunks64 (padded m), ∀ w ∈ unpack_words blk, w < 2 ^ 32) ∧
    (∀ a b c d x s, operation_round_1 a b c d x s < 2 ^ 32 ∧
      operation_round_2 a b c d x s < 2 ^ 32 ∧ operation_round_3 a b c d x s < 2 ^ 32) ∧
    (∀ a b c d X, in_range_state (round_1 a b c d X) ∧
      in_range_state (round_2 a b c d X) ∧ in_range_state (round_3 a b c d X)) ∧
    (∀ st blk, in_range_state (md4_block st blk)) ∧
    (∀ k, in_range_state (md4_state_after m k)) := by
  refine ⟨⟨by norm_num, by norm_num, by norm_num, by norm_num⟩, ?_, ?_, ?_, ?_, ?_⟩
  · intro blk hblk w hw
    have hbytes : ∀ b ∈ blk, b < 256 := fun b hb =>
      padded_bytes_lt m hm b
        (chunks64_mem_subset (padded m).length (padded m) le_rfl blk hblk b hb)
    exact unpack_words_lt blk hbytes w hw
  · exact fun a b c d x s =>
      ⟨operation_round_1_lt a b c d x s, operation_round_2_lt a b c d x s,
        operation_round_3_lt a b c d x s⟩
  · exact fun a b c d X =>
      ⟨round_1_in_range a b c d X, round_2_in_range a b c d X, round_3_in_range a b c d X⟩
  · exact fun st blk => md4_block_in_range st blk
  · exact fun k => md4_state_after_in_range m k

/-- Closed witness for `state_words_in_range`. -/
theorem state_words_in_range_witness :
    in_range_state (md4_state_after [97] 1) :=
  (state_words_in_range [97] (by decide)).2.2.2.2.2 1

/-! ## Totality of the checked pipeline (C9) -/

theorem getElem?_eq_some_getD (l : List Nat) (k : Nat) (h : k < l.length) :
    l[k]? = some (l.getD k 0) := by
  rw [List.getD_eq_getElem?_getD, List.getElem?_eq_getElem h]
  rfl

theorem operation_round_1_checked_eq (A B C D X S : Nat) :
    operation_round_1_checked A B C D X S =
      if 32 < S then none else some (operation_round_1 A B C D X S) := rfl

theorem operation_round_2_checked_eq (A B C D X S : Nat) :
    operation_round_2_checked A B C D X S =
      if 32 < S then none else some (operation_round_2 A B C D X S) := rfl

theorem operation_round_3_checked_eq (A B C D X S : Nat) :
    operation_round_3_checked A B C D X S =
      if 32 < S then none else some (operation_round_3 A B C D X S) := rfl

theorem cons_of_length_succ {α : Type} (l : List α) (n : Nat) (h : l.length = n + 1) :
    ∃ y t, l = y :: t ∧ t.length = n := by
  cases l with
  | nil => simp at h
  | cons a t => exact ⟨a, t, rfl, by simpa using h⟩

set_option maxRecDepth 4000 in
theorem round_1_checked_eq (A B C D : Nat) (X : List Nat) (hX : X.length = 16) :
    round_1_checked A B C D X = some (round_1 A B C D X) := by
  obtain ⟨x0, X, rfl, hX1⟩ := cons_of_length_succ X 15 hX
  obtain ⟨x1, X, rfl, hX2⟩ := cons_of_length_succ X 14 hX1
  obtain ⟨x2, X, rfl, hX3⟩ := cons_of_length_succ X 13 hX2
  obtain ⟨x3, X, rfl, hX4⟩ := cons_of_length_succ X 12 hX3
  obtain ⟨x4, X, rfl, hX5⟩ := cons_of_length_succ X 11 hX4
  obtain ⟨x5, X, rfl, hX6⟩ := cons_of_length_succ X 10 hX5
  obtain ⟨x6, X, rfl, hX7⟩ := cons_of_length_succ X 9 hX6
  obtain ⟨x7, X, rfl, hX8⟩ := cons_of_length_succ X 8 hX7
  obtain ⟨x8, X, rfl, hX9⟩ := cons_of_length_succ X 7 hX8
  obtain ⟨x9, X, rfl, hX10⟩ := cons_of_length_succ X 6 hX9
  obtain ⟨x10, X, rfl, hX11⟩ := cons_of_length_succ X 5 hX10
  obtain ⟨x11, X, rfl, hX12⟩ := cons_of_length_succ X 4 hX11
  obtain ⟨x12, X, rfl, hX13⟩ := cons_of_length_succ X 3 hX12
  obtain ⟨x13, X, rfl, hX14⟩ := cons_of_length_succ X 2 hX13
  obtain ⟨x14, X, rfl, hX15⟩ := cons_of_length_succ X 1 hX14
  obtain ⟨x15, X, rfl, hX16⟩ := cons_of_length_succ X 0 hX15
  have hnil : X = [] := List.eq_nil_of_length_eq_zero hX16
  subst hnil
  rfl

set_option maxRecDepth 4000 in
theorem round_2_checked_eq (A B C D : Nat) (X : List Nat) (hX : X.length = 16) :
    round_2_checked A B C D X = some (round_2 A B C D X) := by
  obtain ⟨x0, X, rfl, hX1⟩ := cons_of_length_succ X 15 hX
  obtain ⟨x1, X, rfl, hX2⟩ := cons_of_length_succ X 14 hX1
  obtain ⟨x2, X, rfl, hX3⟩ := cons_of_length_succ X 13 hX2
  obtain ⟨x3, X, rfl, hX4⟩ := cons_of_length_succ X 12 hX3
  obtain ⟨x4, X, rfl, hX5⟩ := cons_of_length_succ X 11 hX4
  obtain ⟨x5, X, rfl, hX6⟩ := cons_of_length_succ X 10 hX5
  obtain ⟨x6, X, rfl, hX7⟩ := cons_of_length_succ X 9 hX6
  obtain ⟨x7, X, rfl, hX8⟩ := cons_of_length_succ X 8 hX7
  obtain ⟨x8, X, rfl, hX9⟩ := cons_of_length_succ X 7 hX8
  obtain ⟨x9, X, rfl, hX10⟩ := cons_of_length_succ X 6 hX9
  obtain ⟨x10, X, rfl, hX11⟩ := cons_of_length_succ X 5 hX10
  obtain ⟨x11, X, rfl, hX12⟩ := cons_of_length_succ X 4 hX11
  obtain ⟨x12, X, rfl, hX13⟩ := cons_of_length_succ X 3 hX12
  obtain ⟨x13, X, rfl, hX14⟩ := cons_of_length_succ X 2 hX13
  obtain ⟨x14, X, rfl, hX15⟩ := cons_of_length_succ X 1 hX14
  obtain ⟨x15, X, rfl, hX16⟩ := cons_of_length_succ X 0 hX15
  have hnil : X = [] := List.eq_nil_of_length_eq_zero hX16
  subst hnil
  rfl

set_option maxRecDepth 4000 in
theorem round_3_checked_eq (A B C D : Nat) (X : List Nat) (hX : X.length = 16) :
    round_3_checked A B C D X = some (round_3 A B C D X) := by
  obtain ⟨x0, X, rfl, hX1⟩ := cons_of_length_succ X 15 hX
  obtain ⟨x1, X, rfl, hX2⟩ := cons_of_length_succ X 14 hX1
  obtain ⟨x2, X, rfl, hX3⟩ := cons_of_length_succ X 13 hX2
  obtain ⟨x3, X, rfl, hX4⟩ := cons_of_length_succ X 12 hX3
  obtain ⟨x4, X, rfl, hX5⟩ := cons_of_length_succ X 11 hX4
  obtain ⟨x5, X, rfl, hX6⟩ := cons_of_length_succ X 10 hX5
  obtain ⟨x6, X, rfl, hX7⟩ := cons_of_length_succ X 9 hX6
  obtain ⟨x7, X, rfl, hX8⟩ := cons_of_length_succ X 8 hX7
  obtain ⟨x8, X, rfl, hX9⟩ := cons_of_length_succ X 7 hX8
  obtain ⟨x9, X, rfl, hX10⟩ := cons_of_length_succ X 6 hX9
  obtain ⟨x10, X, rfl, hX11⟩ := cons_of_length_succ X 5 hX10
  obtain ⟨x11, X, rfl, hX12⟩ := cons_of_length_succ X 4 hX11
  obtain ⟨x12, X, rfl, hX13⟩ := cons_of_length_succ X 3 hX12
  obtain ⟨x13, X, rfl, hX14⟩ := cons_of_length_succ X 2 hX13
  obtain ⟨x14, X, rfl, hX15⟩ := cons_of_length_succ X 1 hX14
  obtain ⟨x15, X, rfl, hX16⟩ := cons_of_length_succ X 0 hX15
  have hnil : X = [] := List.eq_nil_of_length_eq_zero hX16
  subst hnil
  rfl

theorem unpack_words_length (block : List Nat) : (unpack_words block).length = 16 := by
  simp [unpack_words]

theorem md4_block_checked_eq (st : Nat × Nat × Nat × Nat) (block : List Nat)
    (hb : block.length = 64) :
    md4_block_checked st block = some (md4_block st block) := by
  obtain ⟨a, b, c, d⟩ := st
  rcases h1 : round_1 a b c d (unpack_words block) with ⟨A1, B1, C1, D1⟩
  rcases h2 : round_2 A1 B1 C1 D1 (unpack_words block) with ⟨A2, B2, C2, D2⟩
  rcases h3 : round_3 A2 B2 C2 D2 (unpack_words block) with ⟨A3, B3, C3, D3⟩
  have e1 := round_1_checked_eq a b c d (unpack_words block) (unpack_words_length block)
  rw [h1] at e1
  have e2 := round_2_checked_eq A1 B1 C1 D1 (unpack_words block) (unpack_words_length block)
  rw [h2] at e2
  have e3 := round_3_checked_eq A2 B2 C2 D2 (unpack_words block) (unpack_words_length block)
  rw [h3] at e3
  have hu : unpack_words_checked block = some (unpack_words block) := by
    rw [unpack_words_checked, if_pos hb]
  have hA : md4_block (a, b, c, d) block =
      ((A3 + a) &&& 0xFFFFFFFF, (B3 + b) &&& 0xFFFFFFFF,
        (C3 + c) &&& 0xFFFFFFFF, (D3 + d) &&& 0xFFFFFFFF) := by
    simp only [md4_block, h1, h2, h3]
  rw [hA]
  simp only [md4_block_checked]
  rw [hu, Option.some_bind]
  rw [e1, Option.some_bind]
  rw [e2, Option.some_bind]
  rw [e3, Option.some_bind]

theorem foldlM_eq_foldl {β : Type} (fM : (Nat × Nat × Nat × Nat) → β → Option (Nat × Nat × Nat × Nat))
    (fp : (Nat × Nat × Nat × Nat) → β → Nat × Nat × Nat × Nat) :
    ∀ (l : List β), (∀ s b, b ∈ l → fM s b = some (fp s b)) →
      ∀ s, l.foldlM fM s = some (l.foldl fp s) := by
  intro l
  induction l with
  | nil => intro H s; rfl
  | cons x t ih =>
    intro H s
    rw [List.foldlM_cons, List.foldl_cons, H s x (by simp)]
    show (some (fp s x)).bind (fun b => t.foldlM fM b) = _
    rw [Option.some_bind]
    exact ih (fun s b hb => H s b (by simp [hb])) (fp s x)

theorem slice_length_64 (l : List Nat) (n i : Nat) (hl : l.length = 64 * n) (hi : i < n) :
    ((l.drop (i * 64)).take 64).length = 64 := by
  simp only [List.length_take, List.length_drop]
  omega

theorem foldl_md4_block_in_range {β : Type} (bf : β → List Nat) :
    ∀ (l : List β) (s : Nat × Nat × Nat × Nat), in_range_state s →
      in_range_state (l.foldl (fun st b => md4_block st (bf b)) s) := by
  intro l
  induction l with
  | nil => exact fun s hs => hs
  | cons x t ih =>
    intro s hs
    rw [List.foldl_cons]
    exact ih _ (md4_block_in_range _ _)

/-- C9: the digest computation is total.  With every Python error
condition modelled (negative shift amounts, list indexing out of range,
`struct.unpack` on a buffer that is not exactly 64 bytes, `struct.pack`
on a word outside 32 bits), the checked pipeline reaches no error branch
on any input and computes exactly `md4`. -/
theorem md4_total (m : List Nat) : md4_checked m = some (md4 m) := by
  have hmod : (padded m).length % 64 = 0 := padded_mod_64 m
  have hlen : (padded m).length = 64 * ((padded m).length / (4 * 16)) := by
    rw [show (4 : Nat) * 16 = 64 from by norm_num]
    omega
  have H : ∀ (s : Nat × Nat × Nat × Nat) (i : Nat),
      i ∈ List.range ((padded m).length / (4 * 16)) →
      md4_block_checked s
          (((padded m).drop (i * 4 * 16)).take ((i + 1) * 4 * 16 - i * 4 * 16)) =
        some (md4_block s
          (((padded m).drop (i * 4 * 16)).take ((i + 1) * 4 * 16 - i * 4 * 16))) := by
    intro s i hi
    apply md4_block_checked_eq
    rw [show (i + 1) * 4 * 16 - i * 4 * 16 = 64 from by omega,
      show i * 4 * 16 = i * 64 from by ring]
    exact slice_length_64 (padded m) ((padded m).length / (4 * 16)) i hlen
      (List.mem_range.mp hi)
  have hfold := foldlM_eq_foldl
    (fun buffers i => md4_block_checked buffers
      (((padded m).drop (i * 4 * 16)).take ((i + 1) * 4 * 16 - i * 4 * 16)))
    (fun buffers i => md4_block buffers
      (((padded m).drop (i * 4 * 16)).take ((i + 1) * 4 * 16 - i * 4 * 16)))
    (List.range ((padded m).length / (4 * 16))) H
    (0x67452301, 0xEFCDAB89, 0x98BADCFE, 0x10325476)
  have hfin := foldl_md4_block_in_range
    (fun i : Nat => ((padded m).drop (i * 4 * 16)).take ((i + 1) * 4 * 16 - i * 4 * 16))
    (List.range ((padded m).length / (4 * 16)))
    (0x67452301, 0xEFCDAB89, 0x98BADCFE, 0x10325476)
    ⟨by norm_num, by norm_num, by norm_num, by norm_num⟩
  simp only [md4_checked, md4]
  rw [show append_length (pad_message m) m.length = padded m from rfl]
  rw [hfold, Option.some_bind, pack_words_checked,
    if_pos ⟨hfin.1, hfin.2.1, hfin.2.2.1, hfin.2.2.2⟩]

end MD4
